import Mathlib

/-!
# BioSentiers backend — verification of the request-validation pipeline and helpers

This file embeds, in Lean 4, the parts of the MediaComem/biosentiers-backend
repository needed to settle the frozen claims:

* the declarative request-validation engine (`validate.requestBody` with its
  `series` / `parallel` / `if` / `while` / `each` combinators and the validator
  step library).  The engine itself (the `validate` library) is not part of the
  repository sources available here — only its callers and its test suites are —
  so the engine is **modelled from the spec** (sections 3–5 and 7 of the
  specification), with each modelled definition carrying a doc comment saying so.
  The concrete per-resource pipelines (installation events, user update,
  installation creation) are reconstructed from the spec scenarios and pinned by
  the expected error lists of the test suites that are part of the sources.
* `parseJsonIntoRecord` from `server/api/parsing.js` (real source code).
* `Participant.generateApiId` from `server/models/participant.js` (real source
  code, with the random-string generator and the record store abstracted as
  collaborators, as the spec prescribes for external collaborators).
-/

namespace BioSentiers

/-- A JSON value, as carried by a parsed request body.  Numbers are modelled as
integers (all numeric values appearing in the validated bodies are integers). -/
inductive Json where
  | null : Json
  | bool : Bool → Json
  | num : Int → Json
  | str : String → Json
  | arr : List Json → Json
  | obj : List (String × Json) → Json
deriving Inhabited, Repr

/-- One segment of a field path: an object key or an array index. -/
inductive Seg where
  | key : String → Seg
  | idx : Nat → Seg
deriving Repr, DecidableEq

/-- A field locator path: an ordered sequence of string/integer path segments
(spec §3, FieldLocator). -/
abbrev Path := List Seg

/-- Lookup of a key in a JSON object's field list (first match wins). -/
def lookupKey : List (String × Json) → String → Option Json
  | [], _ => none
  | (k, v) :: rest, s => if k = s then some v else lookupKey rest s

/-- Resolve one path segment against a JSON value. -/
def getSeg (j : Json) : Seg → Option Json
  | .key s =>
    match j with
    | .obj kvs => lookupKey kvs s
    | _ => none
  | .idx n =>
    match j with
    | .arr vs => vs.get? n
    | _ => none

/-- Modelled from the spec: reading through a FieldLocator returns the value at
the path, or `none` when the path does not exist in the document (spec §4.1:
"Reading returns (value, valueSet) where valueSet is false if the path does not
exist in the document (as opposed to existing with value null)"). -/
def getPath (j : Json) : Path → Option Json
  | [] => some j
  | s :: rest =>
    match getSeg j s with
    | none => none
    | some v => getPath v rest

/-- Rendering of one path segment as a JSON-pointer-style component. -/
def segStr : Seg → String
  | .key s => "/" ++ s
  | .idx n => "/" ++ toString n

/-- Rendering of a path as the JSON-pointer-style `location` string of a
FieldError (spec §3: location such as /themes/0/name). -/
def renderLoc : Path → String
  | [] => ""
  | s :: rest => segStr s ++ renderLoc rest

/-- Modelled from the spec: a FieldError (spec §3) with the attribute shape the
API serializes: message, type "json", location, validator, optional offending
value, valueSet, plus validator-specific extras (types, validation, minLength,
maxLength, actualLength, cause). -/
structure FieldError where
  message : String
  etype : String := "json"
  location : String := ""
  validator : String
  value : Option Json := none
  valueSet : Bool
  types : List String := []
  validation : Option String := none
  minLength : Option Nat := none
  maxLength : Option Nat := none
  actualLength : Option Nat := none
  cause : Option String := none
deriving Repr

/-- Modelled from the spec: the per-field mutable state of a Context (spec §3):
the current value and whether the field was present in the input. -/
structure ChainState where
  value : Json
  valueSet : Bool

/-- Modelled from the spec: the Context built for a field chain reads the value
at the chain's locator path; a missing path gives valueSet false, a present
path (even with explicit null) gives valueSet true (spec §4.1 and P5). -/
def mkCtx (doc : Json) (p : Path) : ChainState :=
  match getPath doc p with
  | none => ⟨.null, false⟩
  | some v => ⟨v, true⟩

/-- Whether a JSON value is the explicit null value. -/
def Json.isNull : Json → Bool
  | .null => true
  | _ => false

/-- The runtime type name of a JSON value, as used by the `type(name)` step. -/
def typeName : Json → String
  | .null => "null"
  | .bool _ => "boolean"
  | .num _ => "number"
  | .str _ => "string"
  | .arr _ => "array"
  | .obj _ => "object"

/-- Modelled from the spec: simplified recogniser for the `iso8601()` step
(spec §4.2: fails when the string does not parse as an ISO-8601 date).  It
accepts dates of the shape YYYY-MM-DD, optionally followed by THH:MM:SS, an
optional millisecond fraction and an optional Z or ±HH:MM zone designator. -/
def validZonePart : List Char → Bool
  | [] => true
  | ['Z'] => true
  | ['+', h1, h2, ':', n1, n2] => [h1, h2, n1, n2].all Char.isDigit
  | ['-', h1, h2, ':', n1, n2] => [h1, h2, n1, n2].all Char.isDigit
  | _ => false

/-- Modelled from the spec: the optional fraction part of an ISO-8601 time. -/
def validFracPart : List Char → Bool
  | '.' :: a :: b :: c :: rest => ([a, b, c].all Char.isDigit) && validZonePart rest
  | rest => validZonePart rest

/-- Modelled from the spec: the optional time part of an ISO-8601 date. -/
def validTimePart : List Char → Bool
  | [] => true
  | 'T' :: h1 :: h2 :: ':' :: n1 :: n2 :: ':' :: s1 :: s2 :: rest =>
      ([h1, h2, n1, n2, s1, s2].all Char.isDigit) && validFracPart rest
  | _ => false

/-- Modelled from the spec: ISO-8601 validity of a string. -/
def validIso8601 (s : String) : Bool :=
  match s.data with
  | y1 :: y2 :: y3 :: y4 :: '-' :: m1 :: m2 :: '-' :: d1 :: d2 :: rest =>
      ([y1, y2, y3, y4, m1, m2, d1, d2].all Char.isDigit) && validTimePart rest
  | _ => false

/-- Modelled from the spec: an atomic validator step or chain gate of the step
library (spec §4.2 and §4.4).  Domain validators that consult external
collaborators (record store, current principal) are modelled by the `check`
constructor carrying the collaborator predicate. -/
inductive Item where
  | required : Item
  | notBlank : Item
  | typeIs : String → Item
  | stringBetween : Nat → Nat → Item
  | iso8601 : Item
  | whileGate : (Json → ChainState → Bool) → Item
  | check : String → String → (Json → Bool) → Item

/-- Modelled from the spec (§9 design note): the chain-local outcome of one
step: continue with a possibly mutated state, skip the rest of the chain
without an error, or fail with one FieldError. -/
inductive Outcome where
  | next : ChainState → Outcome
  | skip : Outcome
  | fail : FieldError → Outcome

/-- Modelled from the spec: execution of one validator step against the chain's
Context (spec §4.2).  Errors are produced without their location; the location
is stamped by the chain runner from the chain's FieldLocator. -/
def evalItem (doc : Json) (st : ChainState) : Item → Outcome
  | .required =>
    if st.valueSet && !st.value.isNull then .next st
    else .fail { message := "is required", validator := "required",
                 value := if st.valueSet then some st.value else none,
                 valueSet := st.valueSet }
  | .notBlank =>
    match st.value with
    | .str s =>
      if s.data.all Char.isWhitespace then
        .fail { message := "must not be blank", validator := "notBlank",
                value := some (.str s), valueSet := st.valueSet }
      else .next st
    | _ => .next st
  | .typeIs t =>
    if typeName st.value = t then .next st
    else .fail { message := "must be of type " ++ t, validator := "type",
                 types := [t], value := some st.value, valueSet := st.valueSet }
  | .stringBetween mn mx =>
    match st.value with
    | .str s =>
      if s.length < mn then
        .fail { message := "must be a string between " ++ toString mn ++ " and " ++
                  toString mx ++ " characters long (the supplied string is too short: " ++
                  toString s.length ++ " characters long)",
                validator := "string", validation := some "between",
                minLength := some mn, maxLength := some mx,
                actualLength := some s.length, cause := some "tooShort",
                value := some (.str s), valueSet := st.valueSet }
      else if mx < s.length then
        .fail { message := "must be a string between " ++ toString mn ++ " and " ++
                  toString mx ++ " characters long (the supplied string is too long: " ++
                  toString s.length ++ " characters long)",
                validator := "string", validation := some "between",
                minLength := some mn, maxLength := some mx,
                actualLength := some s.length, cause := some "tooLong",
                value := some (.str s), valueSet := st.valueSet }
      else .next st
    | _ => .next st
  | .iso8601 =>
    match st.value with
    | .str s =>
      if validIso8601 s then .next st
      else .fail { message := "is not a valid ISO-8601 date", validator := "iso8601",
                   value := some (.str s), valueSet := st.valueSet }
    | _ => .next st
  | .whileGate p => if p doc st then .next st else .skip
  | .check name msg ok =>
    if ok st.value then .next st
    else .fail { message := msg, validator := name,
                 value := some st.value, valueSet := st.valueSet }

/-- Modelled from the spec: a chain of steps on one field runs strictly in
order; a gate that evaluates false skips the remaining steps without an error,
and a failing step appends its error and short-circuits the rest of the chain
(spec §4.4 series semantics, §7: a series short-circuit suppresses redundant
downstream checks on the same field). -/
def runChain (doc : Json) (st : ChainState) : List Item → List FieldError
  | [] => []
  | it :: rest =>
    match evalItem doc st it with
    | .next st' => runChain doc st' rest
    | .skip => []
    | .fail e => [e]

/-- Stamp a location string onto an error produced by a chain. -/
def stampLoc (loc : String) (e : FieldError) : FieldError :=
  { e with location := loc }

/-- Run a chain and stamp its FieldLocator location on every produced error
(spec §3: location must exactly match the JSON-pointer path of the field). -/
def runChainAt (doc : Json) (loc : String) (st : ChainState) (items : List Item) :
    List FieldError :=
  (runChain doc st items).map (stampLoc loc)

/-- Modelled from the spec (§9 design note): the pipeline declaration as a
tagged-variant AST — `validate(locator, steps...)` chains, `series`,
`parallel`, a conditional gate, and per-element iteration over an array field.
In this repository every `each` element chain is a single `validate` chain, so
`eachField` carries the per-element step list directly. -/
inductive Pipeline where
  | chain : Path → List Item → Pipeline
  | series : List Pipeline → Pipeline
  | parallel : List Pipeline → Pipeline
  | ifP : (Json → Bool) → Pipeline → Pipeline → Pipeline
  | eachField : Path → (Nat → Json → List Item) → Pipeline
  | nop : Pipeline

/-- Modelled from the spec: per-element iteration of `each` over an array
field; the element chain at index j reads the element value and its errors are
located at the parent field path extended with /j (spec §4.4). -/
def runEach (doc : Json) (fieldPath : Path) (items : Nat → Json → List Item) :
    List Json → Nat → List FieldError
  | [], _ => []
  | v :: rest, j =>
    runChainAt doc (renderLoc (fieldPath ++ [.idx j])) ⟨v, true⟩ (items j v) ++
      runEach doc fieldPath items rest (j + 1)

mutual
/-- Modelled from the spec: the reference interpreter of a declared pipeline.
Errors of `series` and `parallel` children are merged in the children's
declaration order (spec §4.4: errors from all chains are merged in the chains'
declaration order, not completion order); the schedule-independence of this
merge is proved separately over the concurrent-sink model. -/
def runPipeline (doc : Json) (base : Path) : Pipeline → List FieldError
  | .chain p items => runChainAt doc (renderLoc (base ++ p)) (mkCtx doc p) items
  | .series ps => runSeq doc base ps
  | .parallel ps => runSeq doc base ps
  | .ifP c t e => if c doc then runPipeline doc base t else runPipeline doc base e
  | .eachField p items =>
    match getPath doc p with
    | some (.arr vs) => runEach doc (base ++ p) items vs 0
    | _ => []
  | .nop => []

/-- Declaration-order concatenation of the errors of a list of branches. -/
def runSeq (doc : Json) (base : Path) : List Pipeline → List FieldError
  | [] => []
  | p :: ps => runPipeline doc base p ++ runSeq doc base ps
end

/-- Modelled from the spec: batch validation — when the body is an array, the
pipeline runs independently once per element, with each element's locations
prefixed by its index (spec §4.5). -/
def runBatch (pipe : Pipeline) : List Json → Nat → List FieldError
  | [], _ => []
  | item :: rest, i =>
    runPipeline item [.idx i] pipe ++ runBatch pipe rest (i + 1)

/-- Modelled from the spec: the validation engine entry point
`validate.requestBody` — returns the full ordered FieldError list collected
across every chain and every top-level body item (spec §4.5); the request
succeeds iff this list is empty (spec §7). -/
def requestBody (body : Json) (pipe : Pipeline) : List FieldError :=
  match body with
  | .arr items => runBatch pipe items 0
  | _ => runPipeline body [] pipe

/-- The `isSet` chain gate: continue only when the field was present. -/
def isSetGate : Item := .whileGate (fun _ st => st.valueSet)

/-- Whether a path is present in a document (used by body-level predicates). -/
def isSetAt (doc : Json) (p : Path) : Bool := (getPath doc p).isSome

/-! ## Concrete pipelines

The per-resource pipeline declarations below are the ones the claims quantify
over.  The installation-event and user-update declarations are modelled from
the spec (their declaring modules are not among the available sources) and are
pinned by the expected error lists of the test suites that are part of the
sources; the installation-creation declaration is translated from
`server/api/installations/installations.api.js` (with the
`installations.validations.js` id-availability collaborator abstracted as a
predicate). -/

/-- Modelled from the spec: the parallel branches of the installation-event
creation pipeline (spec Scenario D for the single-body field order; the
version-length check is a separate `isSet`-gated branch, which is what the
expected error order of the batch test of
`installation-events.policy.js` pins down). -/
def evBranches : List Pipeline :=
  [ .chain [.key "type"] [.required, .typeIs "string", .notBlank, .stringBetween 1 255],
    .chain [.key "version"] [.required],
    .chain [.key "occurredAt"] [.required, .typeIs "string", .iso8601],
    .chain [.key "properties"] [isSetGate, .typeIs "object"],
    .chain [.key "version"] [isSetGate, .typeIs "string", .stringBetween 1 25] ]

/-- Modelled from the spec: the installation-event creation pipeline. -/
def installationEventPipeline : Pipeline := .parallel evBranches

/-- Modelled from the spec: the parallel branches of the user-update pipeline
for a caller authenticated as the target user (spec Scenarios A and B; the
previous-password collaborator check — an asynchronous password comparison —
is abstracted as the predicate `prevOk`).  The previous password is only
demanded when the request sets a new password: the user-update tests expect no
`required` error at /previousPassword for bodies that do not set `password`. -/
def userBranches (prevOk : Json → Bool) : List Pipeline :=
  [ .chain [.key "firstName"] [isSetGate, .typeIs "string", .notBlank, .stringBetween 1 20],
    .chain [.key "lastName"] [isSetGate, .typeIs "string", .notBlank, .stringBetween 1 20],
    .chain [.key "password"] [isSetGate, .typeIs "string", .notBlank],
    .chain [.key "previousPassword"]
      [.whileGate (fun doc _ => isSetAt doc [.key "password"]),
       .required, .typeIs "string",
       .check "user.previousPassword" "is incorrect" prevOk] ]

/-- Modelled from the spec: the user-update pipeline. -/
def userUpdatePipeline (prevOk : Json → Bool) : Pipeline := .parallel (userBranches prevOk)

/-- The password comparison collaborator of the user-update pipeline: the
supplied value matches the caller's actual previous password. -/
def prevPasswordIs (pw : String) : Json → Bool
  | .str s => s = pw
  | _ => false

/-- The installation validation pipeline of
`server/api/installations/installations.api.js` (`validateInstallation`): the
/id chain runs only when not in patch mode, and the id-availability
collaborator of `installations.validations.js` is abstracted as `idFree`. -/
def installationPipeline (patchMode : Bool) (idFree : Json → Bool) : Pipeline :=
  .parallel
    [ .ifP (fun _ => !patchMode)
        (.chain [.key "id"]
          [isSetGate, .typeIs "string", .notBlank,
           .check "installation.idAvailable" "is already taken" idFree])
        .nop,
      .chain [.key "properties"] [isSetGate, .typeIs "object"] ]

/-! ### Concrete request bodies and expected errors -/

/-- The invalid installation-event body of spec Scenario D. -/
def bodyD : Json :=
  .obj [("type", .str ""), ("properties", .num 42), ("occurredAt", .str "foo")]

/-- The invalid user-update body of spec Scenario A. -/
def bodyA : Json :=
  .obj [("firstName", .num 42), ("lastName", .str "  \t \n "),
        ("password", .str ""), ("previousPassword", .str "foo")]

/-- A user-update body setting a new password without the previous password. -/
def bodyB : Json := .obj [("password", .str "letmein12")]

/-- Expected Scenario D error: notBlank at /type. -/
def eD1 : FieldError :=
  { message := "must not be blank", location := "/type", validator := "notBlank",
    value := some (.str ""), valueSet := true }

/-- Expected Scenario D error: required at /version. -/
def eD2 : FieldError :=
  { message := "is required", location := "/version", validator := "required",
    valueSet := false }

/-- Expected Scenario D error: iso8601 at /occurredAt. -/
def eD3 : FieldError :=
  { message := "is not a valid ISO-8601 date", location := "/occurredAt",
    validator := "iso8601", value := some (.str "foo"), valueSet := true }

/-- Expected Scenario D error: type at /properties. -/
def eD4 : FieldError :=
  { message := "must be of type object", location := "/properties",
    validator := "type", types := ["object"], value := some (.num 42), valueSet := true }

/-- Expected Scenario A error: type at /firstName. -/
def eA1 : FieldError :=
  { message := "must be of type string", location := "/firstName",
    validator := "type", types := ["string"], value := some (.num 42), valueSet := true }

/-- Expected Scenario A error: notBlank at /lastName. -/
def eA2 : FieldError :=
  { message := "must not be blank", location := "/lastName", validator := "notBlank",
    value := some (.str "  \t \n "), valueSet := true }

/-- Expected Scenario A error: notBlank at /password. -/
def eA3 : FieldError :=
  { message := "must not be blank", location := "/password", validator := "notBlank",
    value := some (.str ""), valueSet := true }

/-- Expected Scenario A error: user.previousPassword at /previousPassword. -/
def eA4 : FieldError :=
  { message := "is incorrect", location := "/previousPassword",
    validator := "user.previousPassword", value := some (.str "foo"), valueSet := true }

/-- Expected error for a new password without the previous password:
required at /previousPassword, valueSet false. -/
def eB1 : FieldError :=
  { message := "is required", location := "/previousPassword", validator := "required",
    valueSet := false }

/-- Prepend a location prefix to an error's location. -/
def addLoc (s : String) (e : FieldError) : FieldError :=
  { e with location := s ++ e.location }

/-! ## Controller create flow -/

/-- The create controller flow of
`server/api/installations/installations.api.js` (and, identically structured,
`excursions.api.js`): await the validation promise, then map the body onto a
record and save it.  A validation rejection propagates before the save step
runs.  The record store is the abstract state `α` and `save` is the persist
collaborator. -/
def createResource {α : Type} (pipe : Pipeline) (save : α → Json → α)
    (store : α) (body : Json) : α × Except (List FieldError) Json :=
  let errs := requestBody body pipe
  if errs.isEmpty then (save store body, .ok body) else (store, .error errs)

/-! ## parseJsonIntoRecord — server/api/parsing.js -/

/-- A value stored in a record field: either a JSON value copied as-is, or the
result of the moment-to-Date conversion applied to a JSON value.  The Date
library is an external collaborator, so the conversion is kept symbolic. -/
inductive RVal where
  | json : Json → RVal
  | date : Json → RVal
deriving Repr

/-- A record exposing get/set, per the abstract record-store interface;
modelled as a partial map from field names to stored values. -/
def Record := String → Option RVal

/-- `record.set(property, value)` of the record collaborator. -/
def Record.set (r : Record) (k : String) (v : RVal) : Record :=
  fun k2 => if k2 = k then some v else r k2

/-- `inflection.underscore` on a camelCase property name. -/
def underscore (s : String) : String :=
  ⟨s.data.flatMap (fun c => if c.isUpper then ['_', c.toLower] else [c])⟩

/-- A string or array property specifier accepted by `parseJsonIntoRecord`
(the scope of the claim; function and plain-object specifiers exist in the
source as well but are not quantified over). -/
inductive PropSpec where
  | str : String → PropSpec
  | arr : List String → PropSpec

/-- The (recordProperty, sourceProperty) pairs of one specifier's properties
map, in `createPropertiesParser` order. -/
def propPairs : PropSpec → List (String × String)
  | .str p => [(underscore p, p)]
  | .arr ps => ps.map (fun p => (underscore p, p))

/-- `_.has(source, prop)` on a parsed JSON body. -/
def hasProp (source : Json) (p : String) : Bool :=
  match source with
  | .obj kvs => (lookupKey kvs p).isSome
  | _ => false

/-- `source[prop]` (meaningful when `hasProp` holds). -/
def getProp (source : Json) (p : String) : Json :=
  match source with
  | .obj kvs => (lookupKey kvs p).getD .null
  | _ => .null

/-- The `/.At$/` test of `createPropertiesParser`: the source property name
ends in "At" preceded by at least one character. -/
def atDateProp (p : String) : Bool :=
  match p.data.reverse with
  | 't' :: 'A' :: _ :: _ => true
  | _ => false

/-- The conversion applied to a present source value: moment-to-Date when the
source property name matches `/.At$/`, identity otherwise. -/
def convertProp (p : String) (v : Json) : RVal :=
  if atDateProp p then .date v else .json v

/-- The body of the parser returned by `createPropertiesParser`: for each
(recordProperty, sourceProperty) pair, set the record field from the source
value only when the source property is present. -/
def applyPairs (source : Json) : List (String × String) → Record → Record
  | [], r => r
  | (rp, sp) :: rest, r =>
    applyPairs source rest
      (if hasProp source sp then r.set rp (convertProp sp (getProp source sp)) else r)

/-- `exports.parseJsonIntoRecord(source, record, ...properties)` of
server/api/parsing.js for string/array specifiers: each specifier's parser is
applied in order. -/
def parseJsonIntoRecord (source : Json) (r : Record) (props : List PropSpec) : Record :=
  applyPairs source (props.flatMap propPairs) r

/-! ## Participant.generateApiId — server/models/participant.js -/

/-- A stored participant row, projected to the two columns the generator
queries. -/
structure ParticipantRow where
  excursionId : Nat
  apiId : String

/-- The fetch collaborator of `generateUniqueApiId`: whether a participant
with this api_id already exists for this excursion in the record store. -/
def apiIdTaken (store : List ParticipantRow) (exc : Nat) (api : String) : Bool :=
  store.any (fun row => row.excursionId == exc && row.apiId == api)

/-- The contract of the randomString.generate collaborator with length 2,
charset alphanumeric and capitalization lowercase: a 2-character lowercase
alphanumeric string. -/
def validApiId (s : String) : Bool :=
  s.length == 2 && s.data.all (fun c => c.isLower || c.isDigit)

/-- `generateUniqueApiId` of server/models/participant.js: draw candidates
from the random-string collaborator (modelled as the stream `cands`), retrying
as long as the drawn id already exists for the excursion; resolve with the
first free candidate.  The recursion never resolves if every drawn candidate
is taken, which the end of the modelled stream represents as `none`. -/
def generateUniqueApiId (store : List ParticipantRow) (exc : Nat) :
    List String → Option String
  | [] => none
  | c :: rest =>
    if apiIdTaken store exc c then generateUniqueApiId store exc rest else some c

/-- `Participant.generateApiId`: undefined (outer `none`) when excursion_id is
not set; otherwise the promise outcome of `generateUniqueApiId`. -/
def generateApiId (excursionId : Option Nat) (store : List ParticipantRow)
    (cands : List String) : Option (Option String) :=
  match excursionId with
  | none => none
  | some exc => some (generateUniqueApiId store exc cands)

/-! ## Concrete data used by the witnesses -/

/-- The 256-character type string of the batch installation-events test. -/
def tooLongType : String := String.mk (List.replicate 256 'a')

/-- The 42-character version string of the batch installation-events test. -/
def tooLongVersion : String := "2.0.0-beta.3+2017-01-01T00:00:00.000+02:00"

/-- First item of the batch installation-events test: blank type. -/
def item0 : Json :=
  .obj [("type", .str "  "), ("version", .str "1.2.3"),
        ("occurredAt", .str "2017-03-01T10:00:00.000Z"),
        ("properties", .obj [("foo", .str "bar")])]

/-- Second item of the batch installation-events test: type too long, version
missing, properties not an object. -/
def item1 : Json :=
  .obj [("type", .str tooLongType),
        ("occurredAt", .str "2017-03-01T10:40:00.000Z"), ("properties", .num 42)]

/-- Third item of the batch installation-events test: occurredAt not a date,
version too long. -/
def item2 : Json :=
  .obj [("type", .str "baz.qux"), ("version", .str tooLongVersion),
        ("occurredAt", .str "bar"), ("properties", .obj [("corge", .str "grault")])]

/-- A sink content for the Scenario D branch outputs in one possible
completion order (the occurredAt and properties lookups complete first). -/
def wsLate : List (Nat × FieldError) :=
  [(2, eD3), (3, eD4), (0, eD1), (1, eD2)]

/-- A sink content for the Scenario D branch outputs in declaration order. -/
def wsDecl : List (Nat × FieldError) :=
  [(0, eD1), (1, eD2), (2, eD3), (3, eD4)]

/-- Expected batch error: notBlank at /0/type. -/
def b0e1 : FieldError :=
  { message := "must not be blank", location := "/0/type", validator := "notBlank",
    value := some (.str "  "), valueSet := true }

/-- Expected batch error: string length at /1/type. -/
def b1e1 : FieldError :=
  { message := "must be a string between 1 and 255 characters long (the supplied string is too long: 256 characters long)",
    location := "/1/type", validator := "string", validation := some "between",
    minLength := some 1, maxLength := some 255, actualLength := some 256,
    cause := some "tooLong", value := some (.str tooLongType), valueSet := true }

/-- Expected batch error: required at /1/version. -/
def b1e2 : FieldError :=
  { message := "is required", location := "/1/version", validator := "required",
    valueSet := false }

/-- Expected batch error: type at /1/properties. -/
def b1e3 : FieldError :=
  { message := "must be of type object", location := "/1/properties",
    validator := "type", types := ["object"], value := some (.num 42), valueSet := true }

/-- Expected batch error: iso8601 at /2/occurredAt. -/
def b2e1 : FieldError :=
  { message := "is not a valid ISO-8601 date", location := "/2/occurredAt",
    validator := "iso8601", value := some (.str "bar"), valueSet := true }

/-- Expected batch error: string length at /2/version. -/
def b2e2 : FieldError :=
  { message := "must be a string between 1 and 25 characters long (the supplied string is too long: 42 characters long)",
    location := "/2/version", validator := "string", validation := some "between",
    minLength := some 1, maxLength := some 25, actualLength := some 42,
    cause := some "tooLong", value := some (.str tooLongVersion), valueSet := true }

/-- An invalid installation body: properties is not an object. -/
def bodyProps42 : Json := .obj [("properties", .num 42)]

/-- A document with a one-element themes array (used to instantiate the
`each` equation). -/
def docThemes : Json := .obj [("themes", .arr [.num 7])]

/-- A document carrying an explicit null at /a. -/
def docNullA : Json := .obj [("a", .null)]

/-- The specifiers of the installation-event `parse` call of
`installation-events.policy.js`. -/
def eventProps : List PropSpec := [.arr ["type", "version", "occurredAt"]]

/-- A source body for the parsing witness: type present, version absent,
occurredAt present. -/
def eventSource : Json :=
  .obj [("type", .str "foo.bar"), ("occurredAt", .str "2017-01-01T10:00:00.000Z")]

/-- The empty record. -/
def emptyRecord : Record := fun _ => none

/-- A participant store occupying api_id "ab" on excursion 1. -/
def partStore : List ParticipantRow := [⟨1, "ab"⟩]

/-! ## Concurrent error-sink model

Modelled from the spec (§5): during a `parallel`, branches append their errors
to one shared sink as their asynchronous lookups complete, so the sink order
depends on completion timing; each appended error is tagged with the
declaration index of its branch, and one branch's own errors arrive in that
branch's own order (each chain owns its Context and appends sequentially).
The engine then restores declaration order by a stable merge on the
declaration index (§4.4: merged in the chains' declaration order, not
completion order). -/

/-- `SinkOf ls ws` holds when `ws` is a possible sink content for the branch
outputs `ls`: projecting the sink onto each declaration index recovers that
branch's own error list. -/
def SinkOf (ls : List (List FieldError)) (ws : List (Nat × FieldError)) : Prop :=
  ∀ i, i < ls.length → (ws.filter (fun q => q.1 == i)).map Prod.snd = ls.getD i []

/-- Modelled from the spec (§4.4, §5): the declaration-order merge of a sink
over `n` branches. -/
def declMerge (n : Nat) (ws : List (Nat × FieldError)) : List FieldError :=
  (List.range n).flatMap (fun i => (ws.filter (fun q => q.1 == i)).map Prod.snd)

theorem range_flatMap_getD {α : Type} (ls : List (List α)) :
    ((List.range ls.length).flatMap fun i => ls.getD i []) = ls.flatten := by
  induction ls with
  | nil => simp
  | cons hd tl ih =>
    rw [List.length_cons, List.range_succ_eq_map, List.flatMap_cons, List.flatMap_map]
    simpa [Function.comp_def] using ih

theorem flatMap_congr {α β : Type} {l : List α} {f g : α → List β}
    (h : ∀ a ∈ l, f a = g a) : l.flatMap f = l.flatMap g := by
  induction l with
  | nil => rfl
  | cons a l ih =>
    rw [List.flatMap_cons, List.flatMap_cons, h a (by simp),
      ih (fun b hb => h b (by simp [hb]))]

/-- Any possible sink content merges to the concatenation of the branch
outputs in declaration order. -/
theorem declMerge_of_sink (ls : List (List FieldError)) (ws : List (Nat × FieldError))
    (h : SinkOf ls ws) : declMerge ls.length ws = ls.flatten := by
  unfold declMerge
  rw [flatMap_congr (g := fun i => ls.getD i [])
    (fun i hi => h i (List.mem_range.mp hi))]
  exact range_flatMap_getD ls

/-- The reference interpreter concatenates branch outputs in declaration
order. -/
theorem runSeq_eq_flatten (doc : Json) (base : Path) (ps : List Pipeline) :
    runSeq doc base ps = (ps.map (runPipeline doc base)).flatten := by
  induction ps with
  | nil => rfl
  | cons p ps ih => simp [runSeq, ih]

/-! ## Location prefixing

Running a pipeline under an extended base path produces exactly the same
errors with the rendered extension prefixed to every location — the structural
fact behind the batch `/itemIndex` prefix and the `each` `/elementIndex`
suffix of spec §4.5 / P4. -/

theorem renderLoc_append (a b : Path) :
    renderLoc (a ++ b) = renderLoc a ++ renderLoc b := by
  induction a with
  | nil => simp [renderLoc, String.empty_append]
  | cons s rest ih => simp [renderLoc, ih, String.append_assoc]

theorem runChainAt_shift (doc : Json) (s t : String) (st : ChainState)
    (items : List Item) :
    runChainAt doc (s ++ t) st items = (runChainAt doc t st items).map (addLoc s) := by
  unfold runChainAt
  rw [List.map_map]
  rfl

theorem runEach_shift (doc : Json) (pre base : Path) (items : Nat → Json → List Item)
    (vs : List Json) (j : Nat) :
    runEach doc (pre ++ base) items vs j =
      (runEach doc base items vs j).map (addLoc (renderLoc pre)) := by
  induction vs generalizing j with
  | nil => rfl
  | cons v rest ih =>
    simp only [runEach, List.map_append]
    rw [List.append_assoc, renderLoc_append, runChainAt_shift, ih]

mutual
theorem runPipeline_shift (doc : Json) (pre base : Path) :
    (p : Pipeline) → runPipeline doc (pre ++ base) p =
      (runPipeline doc base p).map (addLoc (renderLoc pre))
  | .chain q items => by
    simp only [runPipeline]
    rw [List.append_assoc, renderLoc_append, runChainAt_shift]
  | .series ps => by
    simp only [runPipeline]
    exact runSeq_shift doc pre base ps
  | .parallel ps => by
    simp only [runPipeline]
    exact runSeq_shift doc pre base ps
  | .ifP c t e => by
    simp only [runPipeline]
    by_cases h : c doc
    · simp only [h, if_true]
      exact runPipeline_shift doc pre base t
    · simp only [h, if_false]
      exact runPipeline_shift doc pre base e
  | .eachField q items => by
    simp only [runPipeline]
    cases hv : getPath doc q with
    | none => rfl
    | some v =>
      cases v with
      | arr vs => rw [List.append_assoc]; exact runEach_shift doc pre (base ++ q) items vs 0
      | null => rfl
      | bool b => rfl
      | num n => rfl
      | str s => rfl
      | obj kvs => rfl
  | .nop => rfl

theorem runSeq_shift (doc : Json) (pre base : Path) :
    (ps : List Pipeline) → runSeq doc (pre ++ base) ps =
      (runSeq doc base ps).map (addLoc (renderLoc pre))
  | [] => rfl
  | p :: ps => by
    simp only [runSeq, List.map_append]
    rw [runPipeline_shift doc pre base p, runSeq_shift doc pre base ps]
end

theorem renderLoc_idx (i : Nat) : renderLoc [Seg.idx i] = "/" ++ toString i := by
  simp [renderLoc, segStr, String.append_empty]

/-- Batch validation decomposes into the per-item runs, each with its item
index prefixed to every error location. -/
theorem runBatch_eq (pipe : Pipeline) (items : List Json) (i : Nat) :
    runBatch pipe items i = (items.enumFrom i).flatMap
      (fun q => (runPipeline q.2 [] pipe).map (addLoc ("/" ++ toString q.1))) := by
  induction items generalizing i with
  | nil => rfl
  | cons v rest ih =>
    simp only [runBatch, List.enumFrom, List.flatMap_cons, ih]
    have h := runPipeline_shift v [Seg.idx i] [] pipe
    rw [renderLoc_idx, List.append_nil] at h
    rw [h]

/-- The `each` iteration decomposes into the per-element chains, each with the
element index appended to the parent field location. -/
theorem runEach_eq (doc : Json) (fp : Path) (items : Nat → Json → List Item)
    (vs : List Json) (j : Nat) :
    runEach doc fp items vs j = (vs.enumFrom j).flatMap
      (fun el => (runChain doc ⟨el.2, true⟩ (items el.1 el.2)).map
        (stampLoc (renderLoc fp ++ "/" ++ toString el.1))) := by
  induction vs generalizing j with
  | nil => rfl
  | cons v rest ih =>
    simp only [runEach, List.enumFrom, List.flatMap_cons, ih, runChainAt]
    have hl : renderLoc (fp ++ [Seg.idx j]) = renderLoc fp ++ "/" ++ toString j := by
      rw [renderLoc_append, renderLoc_idx, String.append_assoc]
    rw [hl]

/-! ## parseJsonIntoRecord lemmas -/

/-- A record field none of whose pairs set it (either because no pair names it
or because the named source property is absent) is left unchanged. -/
theorem applyPairs_frame (source : Json) (pairs : List (String × String))
    (r : Record) (f : String)
    (h : ∀ q ∈ pairs, q.1 ≠ f ∨ hasProp source q.2 = false) :
    applyPairs source pairs r f = r f := by
  induction pairs generalizing r with
  | nil => rfl
  | cons q rest ih =>
    obtain ⟨rp, sp⟩ := q
    simp only [applyPairs]
    rw [ih _ (fun p hp => h p (List.mem_cons_of_mem _ hp))]
    rcases h (rp, sp) (List.mem_cons_self _ _) with hne | hnp
    · by_cases hh : hasProp source sp = true
      · rw [if_pos hh]
        simp only [Record.set]
        rw [if_neg (fun hfe => hne hfe.symm)]
      · rw [if_neg hh]
    · rw [if_neg (by simp [hnp])]

/-- When the record properties of the pairs are distinct, the resulting value
of a field is determined by the unique pair that names it with a present
source property, converted per the `/.At$/` rule. -/
theorem applyPairs_find (source : Json) (pairs : List (String × String))
    (r : Record) (f : String) (hnd : (pairs.map Prod.fst).Nodup) :
    applyPairs source pairs r f =
      (match pairs.find? (fun q => q.1 == f && hasProp source q.2) with
       | some q => some (convertProp q.2 (getProp source q.2))
       | none => r f) := by
  induction pairs generalizing r with
  | nil => rfl
  | cons q rest ih =>
    obtain ⟨rp, sp⟩ := q
    rw [List.map_cons, List.nodup_cons] at hnd
    obtain ⟨hnotin, hnd'⟩ := hnd
    simp only [applyPairs, List.find?]
    by_cases hrp : rp = f
    · subst hrp
      by_cases hh : hasProp source sp = true
      · rw [if_pos hh, ih _ hnd']
        have hfind : rest.find? (fun q => q.1 == rp && hasProp source q.2) = none := by
          rw [List.find?_eq_none]
          intro q hq
          have hmem : q.1 ∈ rest.map Prod.fst := List.mem_map_of_mem Prod.fst hq
          have hq1 : q.1 ≠ rp := fun he => hnotin (he ▸ hmem)
          simp [hq1]
        rw [hfind]
        simp [Record.set, hh]
      · rw [if_neg hh, ih _ hnd']
        simp only [beq_self_eq_true, Bool.true_and]
        rw [show hasProp source sp = false from Bool.eq_false_iff.mpr hh]
    · by_cases hh : hasProp source sp = true
      · rw [if_pos hh, ih _ hnd']
        have hb : (rp == f) = false := beq_eq_false_iff_ne.mpr hrp
        rw [hb]
        simp only [Bool.false_and]
        cases hfind : rest.find? (fun q => q.1 == f && hasProp source q.2) with
        | none =>
          simp only [Record.set]
          rw [if_neg (fun hfe => hrp hfe.symm)]
        | some q => rfl
      · rw [if_neg hh, ih _ hnd']
        have hb : (hasProp source sp) = false := Bool.eq_false_iff.mpr hh
        rw [hb]
        simp only [Bool.and_false]

/-! ## Claim theorems -/

/-- C1: for every request body, the validation engine's final FieldError list
is deterministic: any two sink contents — the errors as appended by the
parallel branches in arbitrary asynchronous completion orders — merge to the
same ordered error list, namely the declaration-order list of the reference
interpreter, independent of the completion order of asynchronous
resource-resolver lookups. -/
theorem validation_error_order_deterministic (doc : Json) (bs : List Pipeline)
    (ws₁ ws₂ : List (Nat × FieldError))
    (h₁ : SinkOf (bs.map (runPipeline doc [])) ws₁)
    (h₂ : SinkOf (bs.map (runPipeline doc [])) ws₂) :
    declMerge bs.length ws₁ = declMerge bs.length ws₂ ∧
    declMerge bs.length ws₁ = runPipeline doc [] (.parallel bs) := by
  have l₁ := declMerge_of_sink _ _ h₁
  have l₂ := declMerge_of_sink _ _ h₂
  rw [List.length_map] at l₁ l₂
  refine ⟨l₁.trans l₂.symm, l₁.trans ?_⟩
  rw [show runPipeline doc [] (.parallel bs) = runSeq doc [] bs from rfl,
    runSeq_eq_flatten]

/-- Witness for C1: a completion order in which the occurredAt and properties
branches finish first still merges to the declaration-order list. -/
theorem validation_error_order_deterministic_witness :
    declMerge evBranches.length wsLate = declMerge evBranches.length wsDecl ∧
    declMerge evBranches.length wsLate =
      runPipeline bodyD [] (.parallel evBranches) := by
  have hs₁ : SinkOf (evBranches.map (runPipeline bodyD [])) wsLate := by
    intro i hi
    have h5 : i < 5 := by simpa [evBranches] using hi
    interval_cases i <;> rfl
  have hs₂ : SinkOf (evBranches.map (runPipeline bodyD [])) wsDecl := by
    intro i hi
    have h5 : i < 5 := by simpa [evBranches] using hi
    interval_cases i <;> rfl
  exact validation_error_order_deterministic bodyD evBranches wsLate wsDecl hs₁ hs₂

/-- C2: the body of spec Scenario D yields exactly four FieldErrors, in the
order notBlank at /type, required at /version (valueSet false), iso8601 at
/occurredAt, type (types [object]) at /properties — and every sink content of
the parallel branches merges to this same list, whatever the asynchronous
completion order. -/
theorem installation_event_scenario_d :
    requestBody bodyD installationEventPipeline = [eD1, eD2, eD3, eD4] ∧
    ∀ ws : List (Nat × FieldError),
      SinkOf (evBranches.map (runPipeline bodyD [])) ws →
      declMerge evBranches.length ws = [eD1, eD2, eD3, eD4] := by
  refine ⟨rfl, fun ws hws => ?_⟩
  have h := declMerge_of_sink _ _ hws
  rw [List.length_map] at h
  rw [h]
  rfl

/-- Witness for C2: the late-completion sink content merges to the declared
four-error list. -/
theorem installation_event_scenario_d_witness :
    declMerge evBranches.length wsLate = [eD1, eD2, eD3, eD4] :=
  installation_event_scenario_d.2 wsLate (by
    intro i hi
    have h5 : i < 5 := by simpa [evBranches] using hi
    interval_cases i <;> rfl)

/-- C3: the body of spec Scenario A against the user-update pipeline, with a
previous-password collaborator that rejects "foo", yields exactly four
FieldErrors in field-declaration order: type at /firstName, notBlank at
/lastName, notBlank at /password, user.previousPassword at
/previousPassword. -/
theorem user_update_scenario_a (prevOk : Json → Bool)
    (h : prevOk (.str "foo") = false) :
    requestBody bodyA (userUpdatePipeline prevOk) = [eA1, eA2, eA3, eA4] := by
  have hrun : runChain bodyA ⟨Json.str "foo", true⟩
      [Item.check "user.previousPassword" "is incorrect" prevOk] =
      [{ message := "is incorrect", validator := "user.previousPassword",
         value := some (Json.str "foo"), valueSet := true }] := by
    simp [runChain, evalItem, h]
  have hsplit : requestBody bodyA (userUpdatePipeline prevOk) =
      [eA1, eA2, eA3] ++ ((runChain bodyA ⟨Json.str "foo", true⟩
        [Item.check "user.previousPassword" "is incorrect" prevOk]).map
          (stampLoc "/previousPassword") ++ []) := rfl
  rw [hsplit, hrun]
  rfl

/-- Witness for C3: with actual previous password "secret9" (not "foo"), the
four-error list is produced. -/
theorem user_update_scenario_a_witness :
    prevPasswordIs "secret9" (Json.str "foo") = false ∧
    requestBody bodyA (userUpdatePipeline (prevPasswordIs "secret9")) =
      [eA1, eA2, eA3, eA4] :=
  ⟨rfl, user_update_scenario_a (prevPasswordIs "secret9") rfl⟩

/-- C4: for every pipeline, store, save collaborator and body, a request
whose validation produces at least one FieldError performs no write — the
persisted state is unchanged and the outcome is the error list — while the
save step runs exactly when the pipeline resolves with zero errors. -/
theorem no_write_on_validation_failure {α : Type} (pipe : Pipeline)
    (save : α → Json → α) (store : α) (body : Json) :
    ((requestBody body pipe).isEmpty = false →
      (createResource pipe save store body).1 = store ∧
      (createResource pipe save store body).2 = .error (requestBody body pipe)) ∧
    ((requestBody body pipe).isEmpty = true →
      (createResource pipe save store body).1 = save store body) := by
  constructor
  · intro h
    constructor <;> simp [createResource, h]
  · intro h
    simp [createResource, h]

/-- Witness for C4: the invalid installation body leaves the store
unchanged. -/
theorem no_write_on_validation_failure_witness :
    (createResource (installationPipeline false (fun _ => true))
      (fun st b => b :: st) ([] : List Json) bodyProps42).1 = [] :=
  ((no_write_on_validation_failure (installationPipeline false (fun _ => true))
    (fun st b => b :: st) ([] : List Json) bodyProps42).1 rfl).1

/-- C5: a failing required step short-circuits the remaining steps of its own
series — the chain's errors do not depend on the subsequent steps, which
append no error and perform no mutation — while the errors of a parallel
combinator are exactly the concatenation of every sibling chain's own errors,
so sibling chains always run to completion and contribute independently. -/
theorem required_short_circuit_parallel_isolation :
    (∀ (doc : Json) (st : ChainState) (rest : List Item),
      st.valueSet = false ∨ st.value = .null →
      runChain doc st (.required :: rest) =
        [{ message := "is required", validator := "required",
           value := if st.valueSet then some st.value else none,
           valueSet := st.valueSet }] ∧
      runChain doc st (.required :: rest) = runChain doc st [.required]) ∧
    (∀ (doc : Json) (base : Path) (ps : List Pipeline),
      runPipeline doc base (.parallel ps) = (ps.map (runPipeline doc base)).flatten) := by
  constructor
  · intro doc st rest h
    have hreq : (st.valueSet && !st.value.isNull) = false := by
      rcases h with h | h
      · simp [h]
      · simp [h, Json.isNull]
    constructor <;> simp [runChain, evalItem, hreq]
  · intro doc base ps
    rw [show runPipeline doc base (.parallel ps) = runSeq doc base ps from rfl,
      runSeq_eq_flatten]

/-- Witness for C5: a chain whose value is an explicit null fails required and
skips a subsequent type step. -/
theorem required_short_circuit_parallel_isolation_witness :
    runChain Json.null ⟨Json.null, true⟩ [Item.required, Item.typeIs "string"] =
      [{ message := "is required", validator := "required",
         value := some Json.null, valueSet := true }] := by
  have h := (required_short_circuit_parallel_isolation.1 Json.null
    ⟨Json.null, true⟩ [Item.typeIs "string"] (Or.inr rfl)).1
  simpa using h

/-- C6: the Context's valueSet flag is false exactly when the path is absent
from the document; a present explicit null gives valueSet true with value
null; consequently a required check reports valueSet false (and no value) for
a missing path, and valueSet true with value null for an explicit null. -/
theorem valueSet_iff_path_present (doc : Json) (p : Path) :
    ((mkCtx doc p).valueSet = false ↔ getPath doc p = none) ∧
    (getPath doc p = some .null →
      (mkCtx doc p).valueSet = true ∧ (mkCtx doc p).value = .null) ∧
    (getPath doc p = none →
      evalItem doc (mkCtx doc p) .required =
        .fail { message := "is required", validator := "required",
                valueSet := false }) ∧
    (getPath doc p = some .null →
      evalItem doc (mkCtx doc p) .required =
        .fail { message := "is required", validator := "required",
                value := some .null, valueSet := true }) := by
  refine ⟨?_, ?_, ?_, ?_⟩
  · cases h : getPath doc p <;> simp [mkCtx, h]
  · intro h
    simp [mkCtx, h]
  · intro h
    simp [mkCtx, h, evalItem]
  · intro h
    simp [mkCtx, h, evalItem, Json.isNull]

/-- Witness for C6: /a explicit null is present with value null and its
required error carries valueSet true and value null; /b is absent and its
required error carries valueSet false. -/
theorem valueSet_iff_path_present_witness :
    ((mkCtx docNullA [Seg.key "a"]).valueSet = true ∧
      (mkCtx docNullA [Seg.key "a"]).value = .null) ∧
    evalItem docNullA (mkCtx docNullA [Seg.key "a"]) .required =
      .fail { message := "is required", validator := "required",
              value := some .null, valueSet := true } ∧
    evalItem docNullA (mkCtx docNullA [Seg.key "b"]) .required =
      .fail { message := "is required", validator := "required",
              valueSet := false } :=
  ⟨(valueSet_iff_path_present docNullA [Seg.key "a"]).2.1 rfl,
   (valueSet_iff_path_present docNullA [Seg.key "a"]).2.2.2 rfl,
   (valueSet_iff_path_present docNullA [Seg.key "b"]).2.2.1 rfl⟩

set_option maxRecDepth 20000 in
/-- C7: a batch body of N items validates each item independently with the
item index prefixed to every error location (ordered by item index, then by
declaration order within the item); an each over an array-typed field runs one
chain per element with the element index appended to the parent field
location; and the three-item batch of the installation-events test yields
exactly its six expected errors in that order. -/
theorem batch_prefix_each_suffix :
    (∀ (items : List Json) (pipe : Pipeline),
      requestBody (.arr items) pipe = (items.enumFrom 0).flatMap
        (fun q => (runPipeline q.2 [] pipe).map (addLoc ("/" ++ toString q.1)))) ∧
    (∀ (doc : Json) (base q : Path) (items : Nat → Json → List Item)
      (vs : List Json), getPath doc q = some (.arr vs) →
      runPipeline doc base (.eachField q items) = (vs.enumFrom 0).flatMap
        (fun el => (runChain doc ⟨el.2, true⟩ (items el.1 el.2)).map
          (stampLoc (renderLoc (base ++ q) ++ "/" ++ toString el.1)))) ∧
    requestBody (.arr [item0, item1, item2]) installationEventPipeline =
      [b0e1, b1e1, b1e2, b1e3, b2e1, b2e2] := by
  refine ⟨?_, ?_, ?_⟩
  · intro items pipe
    exact runBatch_eq pipe items 0
  · intro doc base q items vs h
    simp only [runPipeline, h]
    exact runEach_eq doc (base ++ q) items vs 0
  · rfl

/-- Witness for C7: instantiating the each equation on a one-element themes
array. -/
theorem batch_prefix_each_suffix_witness :
    runPipeline docThemes [] (.eachField [Seg.key "themes"] (fun _ _ => [Item.typeIs "string"])) =
      ((([Json.num 7]).enumFrom 0).flatMap
        (fun el => (runChain docThemes ⟨el.2, true⟩ [Item.typeIs "string"]).map
          (stampLoc (renderLoc ([] ++ [Seg.key "themes"]) ++ "/" ++ toString el.1)))) :=
  batch_prefix_each_suffix.2.1 docThemes [] [Seg.key "themes"]
    (fun _ _ => [Item.typeIs "string"]) [Json.num 7] rfl

/-- C8 counterexample: against the user-update pipeline the empty body yields
no FieldError at all — in particular not the single required error at
/previousPassword the claim asserts (the previous password is only demanded
when the request sets a new password). -/
theorem user_update_empty_body_counterexample :
    requestBody (.obj []) (userUpdatePipeline (prevPasswordIs "secret9")) ≠ [eB1] := by
  rw [show requestBody (.obj []) (userUpdatePipeline (prevPasswordIs "secret9")) = []
    from rfl]
  simp

/-- C8 amended: a body setting a new password with previousPassword omitted
yields exactly one FieldError: required at /previousPassword with valueSet
false, for every previous-password collaborator. -/
theorem user_update_password_without_previous (prevOk : Json → Bool) :
    requestBody bodyB (userUpdatePipeline prevOk) = [eB1] := rfl

/-- C9: parseJsonIntoRecord with string or array specifiers sets a record
field only when the named source property is present: a field none of whose
pairs both name it and find their source property present is left unchanged,
and with distinct record properties the set value is the unique present source
value, converted to a Date exactly when the source property name ends in "At"
preceded by at least one character, and copied as-is otherwise. -/
theorem parseJsonIntoRecord_frame_and_set (source : Json) (r : Record)
    (props : List PropSpec) (f : String) :
    ((∀ q ∈ props.flatMap propPairs, q.1 ≠ f ∨ hasProp source q.2 = false) →
      parseJsonIntoRecord source r props f = r f) ∧
    (((props.flatMap propPairs).map Prod.fst).Nodup →
      parseJsonIntoRecord source r props f =
        (match (props.flatMap propPairs).find? (fun q => q.1 == f && hasProp source q.2) with
         | some q => some (if atDateProp q.2 then RVal.date (getProp source q.2)
                           else RVal.json (getProp source q.2))
         | none => r f)) := by
  constructor
  · intro h
    exact applyPairs_frame source _ r f h
  · intro hnd
    rw [show parseJsonIntoRecord source r props =
      applyPairs source (props.flatMap propPairs) r from rfl,
      applyPairs_find source _ r f hnd]
    cases (props.flatMap propPairs).find? (fun q => q.1 == f && hasProp source q.2) with
    | none => rfl
    | some q => rfl

/-- Witness for C9: on the installation-event specifiers, a present
occurredAt is converted to a Date, a present type is copied as-is, and the
absent version leaves the record unchanged. -/
theorem parseJsonIntoRecord_frame_and_set_witness :
    parseJsonIntoRecord eventSource emptyRecord eventProps "occurred_at" =
      some (RVal.date (.str "2017-01-01T10:00:00.000Z")) ∧
    parseJsonIntoRecord eventSource emptyRecord eventProps "type" =
      some (RVal.json (.str "foo.bar")) ∧
    parseJsonIntoRecord eventSource emptyRecord eventProps "version" = none := by
  refine ⟨?_, ?_, ?_⟩
  · rw [(parseJsonIntoRecord_frame_and_set eventSource emptyRecord eventProps
      "occurred_at").2 (by decide)]
    rfl
  · rw [(parseJsonIntoRecord_frame_and_set eventSource emptyRecord eventProps
      "type").2 (by decide)]
    rfl
  · rw [(parseJsonIntoRecord_frame_and_set eventSource emptyRecord eventProps
      "version").2 (by decide)]
    rfl

/-- C10: generateApiId returns undefined when the participant's excursion_id
is not set; otherwise, whenever the generation resolves, it resolves to a
candidate of the random-string collaborator — a 2-character lowercase
alphanumeric string — that no participant of the same excursion holds in the
record store. -/
theorem generateApiId_unique (store : List ParticipantRow) (cands : List String) :
    generateApiId none store cands = none ∧
    (∀ (exc : Nat) (s : String), (∀ c ∈ cands, validApiId c = true) →
      generateUniqueApiId store exc cands = some s →
      validApiId s = true ∧ apiIdTaken store exc s = false) := by
  refine ⟨rfl, fun exc s hvalid => ?_⟩
  induction cands with
  | nil => intro h; exact absurd h (by simp [generateUniqueApiId])
  | cons c rest ih =>
    intro h
    rw [show generateUniqueApiId store exc (c :: rest) =
      (if apiIdTaken store exc c then generateUniqueApiId store exc rest
       else some c) from rfl] at h
    by_cases htaken : apiIdTaken store exc c = true
    · rw [if_pos htaken] at h
      exact ih (fun d hd => hvalid d (List.mem_cons_of_mem _ hd)) h
    · rw [if_neg htaken] at h
      obtain rfl : c = s := by injection h
      exact ⟨hvalid c (List.mem_cons_self _ _), Bool.eq_false_iff.mpr htaken⟩

/-- Witness for C10: with "ab" taken on excursion 1, the stream ab, cd
resolves to the free, valid id cd. -/
theorem generateApiId_unique_witness :
    generateUniqueApiId partStore 1 ["ab", "cd"] = some "cd" ∧
    validApiId "cd" = true ∧ apiIdTaken partStore 1 "cd" = false :=
  ⟨rfl, (generateApiId_unique partStore ["ab", "cd"]).2 1 "cd" (by decide) rfl⟩

end BioSentiers
